import Mathlib

/-!
Verification development for the `jsonformat` Go library (shibukawa/jsonformat).

This file shallowly embeds the formatting configuration, the token formatting
engine (`TokenParser` and its handlers from `formatter.go`) and the `Format`
entry point, and proves properties of the embedding.

Modelling conventions:
* Go `int` fields are embedded as `Int`; Go `len(string)` (a UTF-8 byte count)
  is embedded as `goStrLen`.
* `strings.Builder` never fails on `WriteString`, so the Go error checks on
  builder writes collapse to plain appends (`TokenParser.write`).
* Go `nil`-pointer checks on `builder`/`config` have no counterpart for plain
  values and are omitted.
* The external JSON tokenizer (`encoding/json.Decoder.Token`) is modelled by
  `nextToken`; numeric tokens carry the decimal rendering that `json.Marshal`
  produces for the decoded `float64`, which coincides with the literal text
  for the canonical integer/decimal literals exercised here.  NaN/infinity
  checks in the engine are unreachable from the tokenizer and are not
  modelled.
-/

/-- Configuration options for JSON formatting (Go struct `Config`). -/
structure Config where
  IndentSize : Int
  UseTab : Bool
  CompactDepth : Int
deriving DecidableEq, Repr

/-- Go `DefaultConfig`: IndentSize 2, spaces, CompactDepth 3. -/
def DefaultConfig : Config := { IndentSize := 2, UseTab := false, CompactDepth := 3 }

/-- Go `FormatError`; `Original` keeps only the wrapped error's message. -/
structure FormatError where
  Msg : String
  Position : Int
  Original : Option String
deriving DecidableEq, Repr

/-- Go `NewFormatError`. -/
def NewFormatError (msg : String) : FormatError :=
  { Msg := msg, Position := 0, Original := none }

/-- Go `NewFormatErrorWithPosition`. -/
def NewFormatErrorWithPosition (msg : String) (position : Int) : FormatError :=
  { Msg := msg, Position := position, Original := none }

/-- Go `WrapFormatError` (the wrapped error is kept as its message). -/
def WrapFormatError (msg : String) (orig : String) : FormatError :=
  { Msg := msg, Position := 0, Original := some orig }

/-- Go `WrapFormatErrorWithPosition`. -/
def WrapFormatErrorWithPosition (msg : String) (position : Int) (orig : String) : FormatError :=
  { Msg := msg, Position := position, Original := some orig }

/-- Go `validateConfig` (the `config == nil` check has no value-level counterpart). -/
def validateConfig (config : Config) : Except FormatError Unit :=
  if config.IndentSize < 0 then
    .error (NewFormatError "IndentSize must be non-negative")
  else if config.IndentSize > 20 then
    .error (NewFormatError "IndentSize must not exceed 20 spaces")
  else if config.CompactDepth < 0 then
    .error (NewFormatError "CompactDepth must be non-negative")
  else
    .ok ()

/-- Go `ConfigOption`: a mutation of the configuration, embedded purely. -/
def ConfigOption : Type := Config → Config

/-- Go `NewConfig`: apply the options in order to the default, then validate;
on validation failure the whole result reverts to the default. -/
def NewConfig (options : List ConfigOption) : Config :=
  match validateConfig (options.foldl (fun c option => option c) DefaultConfig) with
  | .error _ => DefaultConfig
  | .ok _ => options.foldl (fun c option => option c) DefaultConfig

/-- Go `WithIndentSize`: out-of-range sizes are silently ignored. -/
def WithIndentSize (size : Int) : ConfigOption := fun c =>
  if 0 ≤ size ∧ size ≤ 20 then { c with IndentSize := size } else c

/-- Go `WithTabs`. -/
def WithTabs : ConfigOption := fun c => { c with UseTab := true }

/-- Go `WithSpaces`. -/
def WithSpaces : ConfigOption := fun c => { c with UseTab := false }

/-- Go `WithCompactDepth`: negative depths are silently ignored. -/
def WithCompactDepth (depth : Int) : ConfigOption := fun c =>
  if 0 ≤ depth then { c with CompactDepth := depth } else c

/-- The `json.Token` values the Go decoder can hand to `processToken`:
delimiters (as their characters, like `json.Delim`), strings, numbers
(carrying the marshaller's rendering of the decoded `float64`), booleans
and null. -/
inductive JsonToken where
  | delim (d : Char)
  | str (s : String)
  | num (rendered : String)
  | boolean (b : Bool)
  | null
deriving DecidableEq, Repr

/-- Go struct `TokenParser` (the `decoder` and `inputLength` fields live in
the `Format` loop of the embedding and are not stored here; `processToken`
and the handlers never read them). -/
structure TokenParser where
  depth : Int
  inArray : List Bool
  builder : String
  config : Config
  isFirstElement : Bool
  expectingKey : Bool
deriving DecidableEq, Repr

/-- `strings.Builder.WriteString`, which never fails. -/
def TokenParser.write (p : TokenParser) (s : String) : TokenParser :=
  { p with builder := p.builder ++ s }

/-- Go `TokenParser.isInArray`: false on an empty stack, else the last entry. -/
def TokenParser.isInArray (p : TokenParser) : Bool :=
  match p.inArray.getLast? with
  | none => false
  | some b => b

/-- Go `TokenParser.shouldFormatCompact`:
`p.config.CompactDepth > 0 && p.depth >= p.config.CompactDepth`. -/
def TokenParser.shouldFormatCompact (p : TokenParser) : Bool :=
  decide (p.config.CompactDepth > 0) && decide (p.depth ≥ p.config.CompactDepth)

/-- Go `TokenParser.writeIndent`.  The branch for a negative space count
models the `strings.Repeat` panic that the `Format` boundary would recover
into an error; it is unreachable for validated configurations. -/
def TokenParser.writeIndent (p : TokenParser) : Except FormatError TokenParser :=
  if p.depth < 0 then
    .error (NewFormatError "invalid parser state: negative depth")
  else if p.config.UseTab then
    .ok (p.write (String.mk (List.replicate p.depth.toNat '\t')))
  else
    let totalSpaces := p.depth * p.config.IndentSize
    if totalSpaces > 10000 then
      .error (NewFormatError "indentation too large (exceeds 10000 characters)")
    else if totalSpaces < 0 then
      .error (NewFormatError "panic during formatting: strings: negative Repeat count")
    else
      .ok (p.write (String.mk (List.replicate totalSpaces.toNat ' ')))

/-- Go `TokenParser.writeNewlineAndIndent`. -/
def TokenParser.writeNewlineAndIndent (p : TokenParser) : Except FormatError TokenParser :=
  match (p.write "\n").writeIndent with
  | .error e => .error (WrapFormatError "failed to write indentation after newline" e.Msg)
  | .ok q => .ok q

/-- UTF-8 byte width of a character (what Go's `len` counts per rune). -/
def csize (c : Char) : Nat :=
  if c.toNat < 0x80 then 1
  else if c.toNat < 0x800 then 2
  else if c.toNat < 0x10000 then 3
  else 4

/-- Go `len` on a string: its UTF-8 byte count. -/
def goStrLen (s : String) : Nat := (s.data.map csize).sum

/-- Hexadecimal digit characters as `encoding/json` emits them (lowercase):
codepoint 48 is `0`, 87 + 10 is `a`. -/
def hexDigitChar (n : Nat) : Char :=
  if n % 16 < 10 then Char.ofNat (48 + n % 16) else Char.ofNat (87 + n % 16)

/-- How `encoding/json`'s marshaller (with its default HTML escaping) escapes
one character of a string: models `appendString` as called by `json.Marshal`,
which `TokenParser.escapeString` delegates to.  Characters are compared by
code point (34 `"`, 92 backslash, 60 `<`, 62 `>`, 38 `&`, 10 LF, 13 CR,
9 TAB, 8232/8233 the Unicode line separators). -/
def goJsonEscapeChar (c : Char) : List Char :=
  if c.toNat = 34 then ['\\', '"']
  else if c.toNat = 92 then ['\\', '\\']
  else if c.toNat = 60 then ['\\', 'u', '0', '0', '3', 'c']
  else if c.toNat = 62 then ['\\', 'u', '0', '0', '3', 'e']
  else if c.toNat = 38 then ['\\', 'u', '0', '0', '2', '6']
  else if c.toNat = 10 then ['\\', 'n']
  else if c.toNat = 13 then ['\\', 'r']
  else if c.toNat = 9 then ['\\', 't']
  else if c.toNat < 32 then
    ['\\', 'u', '0', '0', hexDigitChar (c.toNat / 16), hexDigitChar (c.toNat % 16)]
  else if c.toNat = 8232 then ['\\', 'u', '2', '0', '2', '8']
  else if c.toNat = 8233 then ['\\', 'u', '2', '0', '2', '9']
  else [c]

/-- Character-wise escaping of a whole string body. -/
def goJsonEscapeList : List Char → List Char
  | [] => []
  | c :: cs => goJsonEscapeChar c ++ goJsonEscapeList cs

/-- The body `json.Marshal` produces for a string, quotes stripped. -/
def goJsonEscapeString (s : String) : String := String.mk (goJsonEscapeList s.data)

/-- Go `TokenParser.escapeString`: a size guard, then `json.Marshal` with the
surrounding quotes removed (marshalling a string cannot fail, and its output
always carries the quotes, so the quote-stripping branch always fires). -/
def TokenParser.escapeString (_p : TokenParser) (s : String) : Except FormatError String :=
  if goStrLen s > 1000000 then
    .error (NewFormatError "string too large for escaping (exceeds 1MB limit)")
  else
    .ok (goJsonEscapeString s)

/-- Go `TokenParser.formatNumber`: the NaN/infinity guards are unreachable
from the tokenizer, and `json.Marshal` on the decoded value yields the
rendering the token already carries. -/
def TokenParser.formatNumber (_p : TokenParser) (rendered : String) : Except FormatError String :=
  .ok rendered

/-- Go `TokenParser.enterArray`. -/
def TokenParser.enterArray (p : TokenParser) : Except FormatError TokenParser :=
  if p.depth < 0 then
    .error (NewFormatError "invalid parser state: negative depth")
  else if p.depth ≥ 100 then
    .error (NewFormatError "JSON structure too deeply nested (max depth: 100)")
  else
    .ok { p with depth := p.depth + 1, inArray := p.inArray ++ [true] }

/-- Go `TokenParser.exitArray`. -/
def TokenParser.exitArray (p : TokenParser) : Except FormatError TokenParser :=
  if p.depth ≤ 0 then
    .error (NewFormatError "invalid parser state: cannot exit array, depth is zero or negative")
  else if p.inArray.length = 0 then
    .error (NewFormatError "invalid parser state: cannot exit array, no array context")
  else if ¬(p.inArray.getLast?.getD false) then
    .error (NewFormatError "invalid parser state: cannot exit array, currently in object context")
  else
    .ok { p with depth := p.depth - 1, inArray := p.inArray.dropLast }

/-- Go `TokenParser.enterObject`. -/
def TokenParser.enterObject (p : TokenParser) : Except FormatError TokenParser :=
  if p.depth < 0 then
    .error (NewFormatError "invalid parser state: negative depth")
  else if p.depth ≥ 100 then
    .error (NewFormatError "JSON structure too deeply nested (max depth: 100)")
  else
    .ok { p with depth := p.depth + 1, inArray := p.inArray ++ [false] }

/-- Go `TokenParser.exitObject`. -/
def TokenParser.exitObject (p : TokenParser) : Except FormatError TokenParser :=
  if p.depth ≤ 0 then
    .error (NewFormatError "invalid parser state: cannot exit object, depth is zero or negative")
  else if p.inArray.length = 0 then
    .error (NewFormatError "invalid parser state: cannot exit object, no object context")
  else if p.inArray.getLast?.getD false then
    .error (NewFormatError "invalid parser state: cannot exit object, currently in array context")
  else
    .ok { p with depth := p.depth - 1, inArray := p.inArray.dropLast }

/-- The comma-then-spacing block the Go handlers repeat verbatim: a comma,
then a single space when compact, else a newline plus indentation. -/
def TokenParser.writeCommaAndSpacing (p : TokenParser) : Except FormatError TokenParser :=
  let q := p.write ","
  if p.shouldFormatCompact then
    .ok (q.write " ")
  else
    match q.writeNewlineAndIndent with
    | .error e => .error (WrapFormatError "failed to write newline and indent" e.Msg)
    | .ok r => .ok r

/-- The first-element block the Go handlers repeat verbatim: nothing when
compact, else a newline plus indentation. -/
def TokenParser.writeNewlineUnlessCompact (p : TokenParser) : Except FormatError TokenParser :=
  if p.shouldFormatCompact then
    .ok p
  else
    match p.writeNewlineAndIndent with
    | .error e => .error (WrapFormatError "failed to write newline and indent" e.Msg)
    | .ok r => .ok r

/-- The separator logic the Go handlers repeat verbatim for elements inside
an array (`startObject`, and the value cases of `handleString`,
`handleNumber`, `handleBoolean`, `handleNull`): if not the first element
and inside an array, a comma then spacing; else if at positive depth inside
an array, the first-element spacing. -/
def TokenParser.writeArraySeparator (p : TokenParser) : Except FormatError TokenParser :=
  if ¬p.isFirstElement ∧ p.isInArray then
    p.writeCommaAndSpacing
  else if 0 < p.depth ∧ p.isInArray then
    p.writeNewlineUnlessCompact
  else
    .ok p

/-- The separator block of `startArray`: only the comma case (the Go
`else if p.depth > 0` branch there is deliberately empty). -/
def TokenParser.writeCommaSeparator (p : TokenParser) : Except FormatError TokenParser :=
  if ¬p.isFirstElement ∧ p.isInArray then
    p.writeCommaAndSpacing
  else
    .ok p

/-- The separator block of the key case of `handleString`: a comma then
spacing when not the first element, else a newline-plus-indent at positive
depth when not compact. -/
def TokenParser.writeKeySeparator (p : TokenParser) : Except FormatError TokenParser :=
  if ¬p.isFirstElement then
    p.writeCommaAndSpacing
  else if 0 < p.depth ∧ ¬p.shouldFormatCompact then
    match p.writeNewlineAndIndent with
    | .error e => .error (WrapFormatError "failed to write newline and indent" e.Msg)
    | .ok r => .ok r
  else
    .ok p

/-- Go `TokenParser.startObject`. -/
def TokenParser.startObject (p : TokenParser) : Except FormatError TokenParser :=
  if p.expectingKey ∧ 0 < p.depth then
    .error (NewFormatError "malformed JSON: unexpected object start, expected object key")
  else if p.depth ≥ 100 then
    .error (NewFormatError "JSON structure too deeply nested (max depth: 100)")
  else
    match p.writeArraySeparator with
    | .error e => .error e
    | .ok q =>
      let r := if 0 < p.depth ∧ ¬p.isInArray then q.write " \x7b" else q.write "\x7b"
      match r.enterObject with
      | .error e => .error (WrapFormatError "failed to enter object state" e.Msg)
      | .ok s => .ok { s with isFirstElement := true, expectingKey := true }

/-- Go `TokenParser.endObject`. -/
def TokenParser.endObject (p : TokenParser) : Except FormatError TokenParser :=
  if p.depth = 0 then
    .error (NewFormatError "malformed JSON: unexpected object end, no matching opening brace")
  else if p.inArray.length = 0 then
    .error (NewFormatError "malformed JSON: unexpected object end, invalid parser state")
  else if p.isInArray then
    .error (NewFormatError "malformed JSON: unexpected object end, currently in array context")
  else
    let isCompact := p.shouldFormatCompact
    match p.exitObject with
    | .error e => .error (WrapFormatError "failed to exit object state" e.Msg)
    | .ok q =>
      let q := { q with expectingKey := false }
      if isCompact then
        .ok (q.write "\x7d")
      else
        match q.writeNewlineAndIndent with
        | .error e => .error (WrapFormatError "failed to write newline and indent" e.Msg)
        | .ok r => .ok (r.write "\x7d")

/-- Go `TokenParser.startArray`. -/
def TokenParser.startArray (p : TokenParser) : Except FormatError TokenParser :=
  if p.expectingKey ∧ 0 < p.depth then
    .error (NewFormatError "malformed JSON: unexpected array start, expected object key")
  else if p.depth ≥ 100 then
    .error (NewFormatError "JSON structure too deeply nested (max depth: 100)")
  else
    match p.writeCommaSeparator with
    | .error e => .error e
    | .ok q =>
      let r := if 0 < p.depth ∧ ¬p.isInArray then q.write " [" else q.write "["
      match r.enterArray with
      | .error e => .error (WrapFormatError "failed to enter array state" e.Msg)
      | .ok s => .ok { s with isFirstElement := true, expectingKey := false }

/-- Go `TokenParser.endArray`. -/
def TokenParser.endArray (p : TokenParser) : Except FormatError TokenParser :=
  if p.depth = 0 then
    .error (NewFormatError "malformed JSON: unexpected array end, no matching opening bracket")
  else if p.inArray.length = 0 then
    .error (NewFormatError "malformed JSON: unexpected array end, invalid parser state")
  else if ¬p.isInArray then
    .error (NewFormatError "malformed JSON: unexpected array end, currently in object context")
  else
    let isCompact := p.shouldFormatCompact
    match p.exitArray with
    | .error e => .error (WrapFormatError "failed to exit array state" e.Msg)
    | .ok q =>
      match (if isCompact then Except.ok (q.write "]")
             else match q.writeNewlineAndIndent with
                  | .error e => .error (WrapFormatError "failed to write newline and indent" e.Msg)
                  | .ok r => .ok (r.write "]")) with
      | .error e => .error e
      | .ok r =>
        .ok (if ¬r.isInArray then { r with expectingKey := true } else r)

/-- Go `TokenParser.handleString` (keys and values). -/
def TokenParser.handleString (p : TokenParser) (value : String) : Except FormatError TokenParser :=
  if goStrLen value > 1000000 then
    .error (NewFormatError "string value too large (exceeds 1MB limit)")
  else if p.expectingKey then
    if p.depth = 0 ∨ p.isInArray then
      .error (NewFormatError "malformed JSON: unexpected object key outside of object context")
    else
      match p.writeKeySeparator with
      | .error e => .error e
      | .ok q =>
        let q := q.write "\""
        match q.escapeString value with
        | .error e => .error (WrapFormatError "failed to escape object key" e.Msg)
        | .ok escapedKey =>
          let q := (q.write escapedKey).write "\":"
          .ok { q with isFirstElement := false, expectingKey := false }
  else
    match p.writeArraySeparator with
    | .error e => .error e
    | .ok q =>
      let q := if 0 < p.depth ∧ ¬p.isInArray then q.write " \"" else q.write "\""
      match q.escapeString value with
      | .error e => .error (WrapFormatError "failed to escape string value" e.Msg)
      | .ok escapedValue =>
        let q := (q.write escapedValue).write "\""
        let q := { q with isFirstElement := false }
        .ok (if ¬q.isInArray then { q with expectingKey := true } else q)

/-- Go `TokenParser.handleNumber` (the token carries the marshaller's
rendering; the NaN/infinity guards are unreachable from the tokenizer). -/
def TokenParser.handleNumber (p : TokenParser) (rendered : String) : Except FormatError TokenParser :=
  if p.expectingKey then
    .error (NewFormatError "malformed JSON: unexpected number, expected object key")
  else
    match p.writeArraySeparator with
    | .error e => .error e
    | .ok q =>
      match q.formatNumber rendered with
      | .error e => .error (WrapFormatError "failed to format number" e.Msg)
      | .ok formattedNumber =>
        let q := if 0 < p.depth ∧ ¬p.isInArray then q.write (" " ++ formattedNumber)
                 else q.write formattedNumber
        let q := { q with isFirstElement := false }
        .ok (if ¬q.isInArray then { q with expectingKey := true } else q)

/-- Go `TokenParser.handleBoolean`. -/
def TokenParser.handleBoolean (p : TokenParser) (value : Bool) : Except FormatError TokenParser :=
  if p.expectingKey then
    .error (NewFormatError "malformed JSON: unexpected boolean, expected object key")
  else
    match p.writeArraySeparator with
    | .error e => .error e
    | .ok q =>
      let boolStr := if value then "true" else "false"
      let q := if 0 < p.depth ∧ ¬p.isInArray then q.write (" " ++ boolStr) else q.write boolStr
      let q := { q with isFirstElement := false }
      .ok (if ¬q.isInArray then { q with expectingKey := true } else q)

/-- Go `TokenParser.handleNull`. -/
def TokenParser.handleNull (p : TokenParser) : Except FormatError TokenParser :=
  if p.expectingKey then
    .error (NewFormatError "malformed JSON: unexpected null, expected object key")
  else
    match p.writeArraySeparator with
    | .error e => .error e
    | .ok q =>
      let q := if 0 < p.depth ∧ ¬p.isInArray then q.write " null" else q.write "null"
      let q := { q with isFirstElement := false }
      .ok (if ¬q.isInArray then { q with expectingKey := true } else q)

/-- Go `TokenParser.handleDelimiter`. -/
def TokenParser.handleDelimiter (p : TokenParser) (delim : Char) : Except FormatError TokenParser :=
  if delim = '{' then p.startObject
  else if delim = '}' then p.endObject
  else if delim = '[' then p.startArray
  else if delim = ']' then p.endArray
  else .error (NewFormatError ("unknown delimiter: " ++ String.mk [delim]))

/-- Go `TokenParser.processToken` (the `default` arm for an unknown token
type is unrepresentable in the embedding). -/
def TokenParser.processToken (p : TokenParser) (token : JsonToken) : Except FormatError TokenParser :=
  if p.depth < 0 then
    .error (NewFormatError "invalid parser state: negative depth")
  else if p.depth > 100 then
    .error (NewFormatError "JSON structure too deeply nested (max depth: 100)")
  else
    match token with
    | .delim d => p.handleDelimiter d
    | .str s => p.handleString s
    | .num r => p.handleNumber r
    | .boolean b => p.handleBoolean b
    | .null => p.handleNull

/-- States of the modelled tokenizer between two `Token` calls. -/
inductive DecExp where
  | topValue
  | arrFirst
  | arrComma
  | objFirst
  | objColon
  | objComma
deriving DecidableEq, Repr

/-- Modelled from the spec: the external JSON tokenizer collaborator
(`encoding/json.Decoder`, not part of this repository's sources), which
supplies in document order a flat stream of typed tokens and is responsible
for baseline JSON-syntax legality.  `rest` is the unread input, `stk` the
open containers (head innermost, `true` = array), `exp` the parse state. -/
structure Dec where
  rest : List Char
  stk : List Bool
  exp : DecExp
deriving DecidableEq, Repr

/-- JSON insignificant whitespace. -/
def isJsonWs (c : Char) : Bool := c = ' ' ∨ c = '\t' ∨ c = '\n' ∨ c = '\r'

/-- Skip insignificant whitespace. -/
def skipWs : List Char → List Char
  | [] => []
  | c :: cs => if isJsonWs c then skipWs cs else c :: cs

/-- Parse state after a complete value, given the enclosing containers. -/
def afterValueExp : List Bool → DecExp
  | [] => .topValue
  | true :: _ => .arrComma
  | false :: _ => .objComma

/-- ASCII decimal digit. -/
def isDigitChar (c : Char) : Bool := '0' ≤ c ∧ c ≤ '9'

/-- Hex digit value, if any. -/
def hexVal (c : Char) : Option Nat :=
  if '0' ≤ c ∧ c ≤ '9' then some (c.toNat - '0'.toNat)
  else if 'a' ≤ c ∧ c ≤ 'f' then some (c.toNat - 'a'.toNat + 10)
  else if 'A' ≤ c ∧ c ≤ 'F' then some (c.toNat - 'A'.toNat + 10)
  else none

/-- Single-character escapes of JSON string literals. -/
def jsonEscMap (c : Char) : Option Char :=
  if c = '"' then some '"'
  else if c = '\\' then some '\\'
  else if c = '/' then some '/'
  else if c = 'b' then some (Char.ofNat 8)
  else if c = 'f' then some (Char.ofNat 12)
  else if c = 'n' then some '\n'
  else if c = 'r' then some '\r'
  else if c = 't' then some '\t'
  else none

/-- Parse the remainder of a string literal (after the opening quote),
returning the decoded characters and the input after the closing quote.
Surrogate-pair recombination of `\uXXXX` escapes is not modelled. -/
def parseStringLit : List Char → Except String (List Char × List Char)
  | [] => .error "unexpected end of string literal"
  | c :: cs =>
    if c = '"' then .ok ([], cs)
    else if c = '\\' then
      match cs with
      | [] => .error "unexpected end of string literal"
      | e :: cs' =>
        if e = 'u' then
          match cs' with
          | a :: b :: c2 :: d :: cs'' =>
            match hexVal a, hexVal b, hexVal c2, hexVal d with
            | some ha, some hb, some hc, some hd =>
              match parseStringLit cs'' with
              | .error msg => .error msg
              | .ok (v, r) => .ok (Char.ofNat (((ha * 16 + hb) * 16 + hc) * 16 + hd) :: v, r)
            | _, _, _, _ => .error "invalid unicode escape in string literal"
          | _ => .error "invalid unicode escape in string literal"
        else
          match jsonEscMap e with
          | some ch =>
            match parseStringLit cs' with
            | .error msg => .error msg
            | .ok (v, r) => .ok (ch :: v, r)
          | none => .error "invalid escape in string literal"
    else if c.toNat < 0x20 then .error "control character in string literal"
    else
      match parseStringLit cs with
      | .error msg => .error msg
      | .ok (v, r) => .ok (c :: v, r)

/-- Parse the fraction part of a number literal, if present. -/
def parseFracPart : List Char → Except String (List Char × List Char)
  | '.' :: r =>
    let ds := r.takeWhile isDigitChar
    if ds.isEmpty then .error "invalid number literal"
    else .ok ('.' :: ds, r.dropWhile isDigitChar)
  | s => .ok ([], s)

/-- Parse the exponent part of a number literal, if present. -/
def parseExpPart : List Char → Except String (List Char × List Char)
  | [] => .ok ([], [])
  | c :: r =>
    if c = 'e' ∨ c = 'E' then
      let (sign, r1) : List Char × List Char :=
        match r with
        | '+' :: t => (['+'], t)
        | '-' :: t => (['-'], t)
        | _ => ([], r)
      let ds := r1.takeWhile isDigitChar
      if ds.isEmpty then .error "invalid number literal"
      else .ok (c :: (sign ++ ds), r1.dropWhile isDigitChar)
    else .ok ([], c :: r)

/-- Parse a number literal, returning its text and the rest of the input. -/
def parseNumberLit (s : List Char) : Except String (List Char × List Char) :=
  let (neg, s1) : List Char × List Char :=
    match s with
    | '-' :: r => (['-'], r)
    | _ => ([], s)
  match s1 with
  | [] => .error "invalid number literal"
  | c :: _ =>
    if ¬isDigitChar c then .error "invalid number literal"
    else
      let (intPart, s2) : List Char × List Char :=
        if c = '0' then ([c], s1.tail)
        else (s1.takeWhile isDigitChar, s1.dropWhile isDigitChar)
      match parseFracPart s2 with
      | .error msg => .error msg
      | .ok (frac, s3) =>
        match parseExpPart s3 with
        | .error msg => .error msg
        | .ok (expPart, s4) => .ok (neg ++ intPart ++ frac ++ expPart, s4)

/-- Parse one value-starting token. -/
def parseValueStart (stk : List Bool) (s : List Char) : Except String (JsonToken × Dec) :=
  match s with
  | [] => .error "unexpected end of JSON input"
  | c :: cs =>
    if c = '{' then .ok (.delim '{', ⟨cs, false :: stk, .objFirst⟩)
    else if c = '[' then .ok (.delim '[', ⟨cs, true :: stk, .arrFirst⟩)
    else if c = '"' then
      match parseStringLit cs with
      | .error msg => .error msg
      | .ok (v, r) => .ok (.str (String.mk v), ⟨r, stk, afterValueExp stk⟩)
    else if c = 't' then
      match s with
      | 't' :: 'r' :: 'u' :: 'e' :: r => .ok (.boolean true, ⟨r, stk, afterValueExp stk⟩)
      | _ => .error "invalid literal in JSON input"
    else if c = 'f' then
      match s with
      | 'f' :: 'a' :: 'l' :: 's' :: 'e' :: r => .ok (.boolean false, ⟨r, stk, afterValueExp stk⟩)
      | _ => .error "invalid literal in JSON input"
    else if c = 'n' then
      match s with
      | 'n' :: 'u' :: 'l' :: 'l' :: r => .ok (.null, ⟨r, stk, afterValueExp stk⟩)
      | _ => .error "invalid literal in JSON input"
    else if c = '-' ∨ isDigitChar c then
      match parseNumberLit s with
      | .error msg => .error msg
      | .ok (txt, r) => .ok (.num (String.mk txt), ⟨r, stk, afterValueExp stk⟩)
    else .error "invalid character in JSON input"

/-- Emit a closing-bracket token, popping the container stack. -/
def closeContainer (d : Char) (cs : List Char) (stk : List Bool) :
    Except String (Option (JsonToken × Dec)) :=
  match stk with
  | [] => .error "unexpected closing delimiter"
  | _ :: stk' => .ok (some (.delim d, ⟨cs, stk', afterValueExp stk'⟩))

/-- Emit an object-key token (after its opening quote). -/
def parseKeyToken (cs : List Char) (stk : List Bool) :
    Except String (Option (JsonToken × Dec)) :=
  match parseStringLit cs with
  | .error msg => .error msg
  | .ok (v, r) => .ok (some (.str (String.mk v), ⟨r, stk, .objColon⟩))

/-- Modelled from the spec: one `Decoder.Token` call of the external
tokenizer.  Returns `none` at the end of the stream, the next token and the
advanced state otherwise, or a syntax error; commas and colons are consumed
and validated silently, like the Go decoder does. -/
def nextToken (d : Dec) : Except String (Option (JsonToken × Dec)) :=
  match skipWs d.rest with
  | [] =>
    match d.exp with
    | .topValue => .ok none
    | _ => .error "unexpected end of JSON input"
  | c :: cs =>
    match d.exp with
    | .topValue =>
      match parseValueStart d.stk (c :: cs) with
      | .error msg => .error msg
      | .ok (t, d') => .ok (some (t, d'))
    | .arrFirst =>
      if c = ']' then closeContainer ']' cs d.stk
      else
        match parseValueStart d.stk (c :: cs) with
        | .error msg => .error msg
        | .ok (t, d') => .ok (some (t, d'))
    | .arrComma =>
      if c = ']' then closeContainer ']' cs d.stk
      else if c = ',' then
        match parseValueStart d.stk (skipWs cs) with
        | .error msg => .error msg
        | .ok (t, d') => .ok (some (t, d'))
      else .error "expected comma or closing bracket in array"
    | .objFirst =>
      if c = '\x7d' then closeContainer '\x7d' cs d.stk
      else if c = '"' then parseKeyToken cs d.stk
      else .error "expected object key or closing brace"
    | .objColon =>
      if c = ':' then
        match parseValueStart d.stk (skipWs cs) with
        | .error msg => .error msg
        | .ok (t, d') => .ok (some (t, d'))
      else .error "expected colon after object key"
    | .objComma =>
      if c = '}' then closeContainer '}' cs d.stk
      else if c = ',' then
        match skipWs cs with
        | '"' :: cs' => parseKeyToken cs' d.stk
        | _ => .error "expected object key after comma"
      else .error "expected comma or closing brace in object"

/-- Go struct `Formatter`. -/
structure Formatter where
  config : Config
deriving Repr

/-- Go `NewFormatter` (the `nil` check has no value-level counterpart). -/
def NewFormatter (config : Config) : Formatter := ⟨config⟩

/-- The parser state `Format` constructs before the token loop. -/
def initParser (config : Config) : TokenParser :=
  { depth := 0, inArray := [], builder := "", config := config,
    isFirstElement := true, expectingKey := false }

/-- The token loop of Go `Formatter.Format`, with its end-of-stream checks.
Every Go `return "", err` site becomes a `("", some err)` result; the one
success exit returns the builder contents with no error.  `fuel` bounds the
iterations; each consumed token eats at least one input character, so
`inputLength + 1` fuel never runs out (the fuel-exhaustion arm mirrors the
unreachable-panic conversion at the Go recovery boundary). -/
def Formatter.formatLoop (fuel : Nat) (d : Dec) (p : TokenParser) (tokenCount : Nat)
    (inputLength : Nat) : String × Option FormatError :=
  match fuel with
  | 0 => ("", some (NewFormatError "unexpected panic during formatting"))
  | fuel + 1 =>
    match nextToken d with
    | .error msg =>
      ("", some (WrapFormatErrorWithPosition "invalid JSON input"
        ((inputLength - d.rest.length : Nat) : Int) msg))
    | .ok none =>
      if p.depth ≠ 0 then
        ("", some (NewFormatError "malformed JSON: unclosed objects or arrays"))
      else if tokenCount = 0 then
        ("", some (NewFormatError "input contains no valid JSON tokens"))
      else
        (p.builder, none)
    | .ok (some (token, d')) =>
      let tokenCount' := tokenCount + 1
      if tokenCount' > 10000 then
        ("", some (NewFormatError "JSON structure too complex or malformed (too many tokens)"))
      else
        match p.processToken token with
        | .error e => ("", some e)
        | .ok p' => Formatter.formatLoop fuel d' p' tokenCount' inputLength

/-- Go `Formatter.Format`: empty-input check, then the token loop. -/
def Formatter.Format (f : Formatter) (jsonStr : String) : String × Option FormatError :=
  if jsonStr = "" then
    ("", some (NewFormatError "input JSON string is empty"))
  else
    Formatter.formatLoop (jsonStr.data.length + 1) ⟨jsonStr.data, [], .topValue⟩
      (initParser f.config) 0 jsonStr.data.length

/-- A valid JSON document reaching nesting depth 101 whose object-valued
member `"a"` is followed by a sibling key `"b"` holding the deep nesting. -/
def deepSiblingInput : String :=
  "\x7b\"a\":\x7b\x7d,\"b\":" ++ String.mk (List.replicate 100 '[') ++
    String.mk (List.replicate 100 ']') ++ "\x7d"

/-- `n` nested arrays: maximum nesting depth exactly `n`. -/
def nestedArrays (n : Nat) : String :=
  String.mk (List.replicate n '[') ++ String.mk (List.replicate n ']')

/-- The writer state fields that builder writes never touch: depth, stack,
configuration and the two element flags agree. -/
def sameShape (p q : TokenParser) : Prop :=
  q.depth = p.depth ∧ q.inArray = p.inArray ∧ q.config = p.config
    ∧ q.isFirstElement = p.isFirstElement ∧ q.expectingKey = p.expectingKey

/-- The engine-state invariant of the spec: the container-kind stack has
exactly `depth` entries and the depth is between 0 and 100. -/
def validState (p : TokenParser) : Prop :=
  (p.inArray.length : Int) = p.depth ∧ 0 ≤ p.depth ∧ p.depth ≤ 100

set_option maxRecDepth 100000

/-- C1: formatting `{"a":[{"b":1},{"c":2}]}` with the default configuration
succeeds, but the engine writes the array value `[` on the same line as the
key (`"a": [`), not — as the claim, the spec's scenario and the repository's
own end-to-end tests state — as `"a": ` followed by the bracket on its own
indented line.  The first conjunct evaluates the embedded code; the second
records that this differs from the claimed output. -/
theorem format_default_example_actual :
    (NewFormatter DefaultConfig).Format "\x7b\"a\":[\x7b\"b\":1\x7d,\x7b\"c\":2\x7d]\x7d"
      = ("\x7b\n  \"a\": [\n    \x7b\"b\": 1\x7d,\n    \x7b\"c\": 2\x7d\n  ]\n\x7d", none)
    ∧ ("\x7b\n  \"a\": [\n    \x7b\"b\": 1\x7d,\n    \x7b\"c\": 2\x7d\n  ]\n\x7d" : String)
      ≠ "\x7b\n  \"a\": \n  [\n    \x7b\"b\": 1\x7d,\n    \x7b\"c\": 2\x7d\n  ]\n\x7d" := by
  exact ⟨rfl, by decide⟩

/-- C2: after the engine closes an object whose enclosing container is again
an object, `expectingKey` is left `false` (Go `endObject` clears it and,
unlike `endArray`, never re-establishes it), so in `{"a":{"x":1},"b":2}` the
sibling key `"b"` is treated as a string value and the following number is
rejected — the whole format operation fails instead of succeeding as the
claim states. -/
theorem format_sibling_key_after_object_value :
    (NewFormatter DefaultConfig).Format "\x7b\"a\":\x7b\"x\":1\x7d,\"b\":2\x7d"
      = ("", some (NewFormatError "malformed JSON: unexpected number, expected object key")) := by
  rfl

/-- C6: the depth guard itself works — 100 nested arrays format without
error and 101 nested arrays are rejected with the resource-guard message —
but not every input reaching depth 101 yields the resource-guard error:
`deepSiblingInput` reaches depth 101, yet the engine fails earlier with a
structural error caused by the stale `expectingKey` state after `{"a":{}}`
(see C2), contradicting the claim that every such input returns a
resource-guard error. -/
theorem depth_guard_boundary :
    ((NewFormatter DefaultConfig).Format (nestedArrays 100)).2 = none
    ∧ (NewFormatter DefaultConfig).Format (nestedArrays 101)
        = ("", some (NewFormatError "JSON structure too deeply nested (max depth: 100)"))
    ∧ (NewFormatter DefaultConfig).Format deepSiblingInput
        = ("", some (NewFormatError "malformed JSON: unexpected array start, expected object key")) := by
  exact ⟨rfl, rfl, rfl⟩

/-- C3 counterexample: raising `CompactDepth` from 0 to 1 makes the
container at depth 1 compact where it was not compact before, refuting the
claimed monotonicity ("raising compactDepth never makes a container compact
that was not compact before") at the disabled-to-enabled boundary. -/
theorem shouldFormatCompact_not_monotone_from_zero :
    TokenParser.shouldFormatCompact
      ⟨1, [true], "", ⟨2, false, 0⟩, true, false⟩ = false
    ∧ TokenParser.shouldFormatCompact
      ⟨1, [true], "", ⟨2, false, 1⟩, true, false⟩ = true := by
  exact ⟨rfl, rfl⟩

/-- C3 (amended): the compact-rendering decision is exactly the pure
predicate `CompactDepth > 0 ∧ depth ≥ CompactDepth`; with `CompactDepth = 0`
nothing is compact; and raising the threshold within the *positive* range
(`0 < cd ≤ cd'`) never makes a container compact that was not compact
before.  (Monotonicity fails when the smaller threshold is 0, see the
counterexample.) -/
theorem shouldFormatCompact_pure_and_monotone (p : TokenParser) (cd cd' : Int)
    (hpos : 0 < cd) (hle : cd ≤ cd') :
    p.shouldFormatCompact
      = (decide (p.config.CompactDepth > 0) && decide (p.depth ≥ p.config.CompactDepth))
    ∧ (p.config.CompactDepth = 0 → p.shouldFormatCompact = false)
    ∧ (TokenParser.shouldFormatCompact { p with config := { p.config with CompactDepth := cd' } } = true
        → TokenParser.shouldFormatCompact { p with config := { p.config with CompactDepth := cd } } = true) := by
  refine ⟨rfl, ?_, ?_⟩
  · intro h
    simp [TokenParser.shouldFormatCompact, h]
  · intro h
    simp only [TokenParser.shouldFormatCompact, Bool.and_eq_true, decide_eq_true_eq] at h ⊢
    omega

/-- Witness for the amended C3 theorem at `cd = 1`, `cd' = 2`, depth 3. -/
theorem shouldFormatCompact_pure_and_monotone_witness :
    (0 : Int) < 1 ∧ (1 : Int) ≤ 2 ∧
    (TokenParser.shouldFormatCompact
        { (⟨3, [false, true, false], "", ⟨2, false, 5⟩, true, false⟩ : TokenParser) with
          config := { (⟨2, false, 5⟩ : Config) with CompactDepth := 2 } } = true
      → TokenParser.shouldFormatCompact
        { (⟨3, [false, true, false], "", ⟨2, false, 5⟩, true, false⟩ : TokenParser) with
          config := { (⟨2, false, 5⟩ : Config) with CompactDepth := 1 } } = true) := by
  exact ⟨by decide, by decide,
    (shouldFormatCompact_pure_and_monotone
      ⟨3, [false, true, false], "", ⟨2, false, 5⟩, true, false⟩ 1 2
      (by decide) (by decide)).2.2⟩

/-- C5: with a non-negative depth and a non-negative indent size (both hold
for every reachable state under a valid configuration), `writeIndent`
appends exactly `depth` tab characters in tab mode and exactly
`depth × IndentSize` space characters in space mode, and in space mode it
errors instead when `depth × IndentSize` exceeds 10000 (there is no such
cap in tab mode). -/
theorem writeIndent_width (p : TokenParser) (hd : 0 ≤ p.depth)
    (his : 0 ≤ p.config.IndentSize) :
    (p.config.UseTab = true →
      p.writeIndent = .ok (p.write (String.mk (List.replicate p.depth.toNat '\t'))))
    ∧ (p.config.UseTab = false → p.depth * p.config.IndentSize ≤ 10000 →
      p.writeIndent
        = .ok (p.write (String.mk (List.replicate (p.depth * p.config.IndentSize).toNat ' '))))
    ∧ (p.config.UseTab = false → 10000 < p.depth * p.config.IndentSize →
      p.writeIndent = .error (NewFormatError "indentation too large (exceeds 10000 characters)")) := by
  refine ⟨?_, ?_, ?_⟩
  · intro htab
    simp [TokenParser.writeIndent, htab, not_lt.mpr hd]
  · intro htab hle
    have hnn : ¬ p.depth * p.config.IndentSize < 0 :=
      not_lt.mpr (mul_nonneg hd his)
    simp [TokenParser.writeIndent, htab, not_lt.mpr hd, not_lt.mpr hle, hnn]
  · intro htab hgt
    simp [TokenParser.writeIndent, htab, not_lt.mpr hd, hgt]

/-- Witness for C5 at depth 3 with the default (2-space) configuration. -/
theorem writeIndent_width_witness :
    (0 : Int) ≤ 3 ∧ (0 : Int) ≤ 2 ∧
    TokenParser.writeIndent ⟨3, [false, false, false], "x", ⟨2, false, 3⟩, true, false⟩
      = .ok (TokenParser.write ⟨3, [false, false, false], "x", ⟨2, false, 3⟩, true, false⟩
          (String.mk (List.replicate ((3 : Int) * 2).toNat ' '))) := by
  exact ⟨by decide, by decide,
    (writeIndent_width ⟨3, [false, false, false], "x", ⟨2, false, 3⟩, true, false⟩
      (by decide) (by decide)).2.1 rfl (by decide)⟩

/-- A configuration accepted by `validateConfig` satisfies the documented
bounds. -/
theorem validateConfig_ok_bounds {cfg : Config} {u : Unit}
    (h : validateConfig cfg = .ok u) :
    0 ≤ cfg.IndentSize ∧ cfg.IndentSize ≤ 20 ∧ 0 ≤ cfg.CompactDepth := by
  unfold validateConfig at h
  split_ifs at h
  simp_all

/-- C9: `NewConfig` applies the options in order to the default
configuration, `WithIndentSize` silently ignores out-of-range sizes, a
validation failure reverts the whole result to the default, the result
always satisfies `0 ≤ IndentSize ≤ 20` and `0 ≤ CompactDepth`, and a later
in-range `WithIndentSize` overrides an earlier one. -/
theorem newConfig_bounds_and_options (options : List ConfigOption) (size n m : Int)
    (c : Config) (hout : size < 0 ∨ 20 < size) (hm0 : 0 ≤ m) (hm20 : m ≤ 20) :
    (0 ≤ (NewConfig options).IndentSize ∧ (NewConfig options).IndentSize ≤ 20
      ∧ 0 ≤ (NewConfig options).CompactDepth)
    ∧ WithIndentSize size c = c
    ∧ ((∃ e, validateConfig (options.foldl (fun cfg option => option cfg) DefaultConfig)
          = .error e) → NewConfig options = DefaultConfig)
    ∧ (NewConfig [WithIndentSize n, WithIndentSize m]).IndentSize = m := by
  refine ⟨?_, ?_, ?_, ?_⟩
  · unfold NewConfig
    split
    · exact ⟨by decide, by decide, by decide⟩
    · next u heq => exact validateConfig_ok_bounds heq
  · show (if 0 ≤ size ∧ size ≤ 20 then { c with IndentSize := size } else c) = c
    rw [if_neg (by omega)]
  · rintro ⟨e, he⟩
    unfold NewConfig
    split
    · rfl
    · next u heq => rw [he] at heq; cases heq
  · have h1 : ¬ (m < 0) := by omega
    have h2 : ¬ (m > 20) := by omega
    by_cases hn : 0 ≤ n ∧ n ≤ 20 <;>
      simp [NewConfig, WithIndentSize, validateConfig, hn, hm0, hm20, h1, h2, DefaultConfig]

/-- Witness for C9 with a tab option, the out-of-range size 21 and the
override pair 25 (ignored) then 4. -/
theorem newConfig_bounds_and_options_witness :
    ((21 : Int) < 0 ∨ (20 : Int) < 21) ∧ (0 : Int) ≤ 4 ∧ (4 : Int) ≤ 20 ∧
    ((0 ≤ (NewConfig [WithTabs]).IndentSize ∧ (NewConfig [WithTabs]).IndentSize ≤ 20
        ∧ 0 ≤ (NewConfig [WithTabs]).CompactDepth)
      ∧ WithIndentSize 21 DefaultConfig = DefaultConfig
      ∧ ((∃ e, validateConfig (List.foldl (fun cfg option => option cfg) DefaultConfig [WithTabs])
            = .error e) → NewConfig [WithTabs] = DefaultConfig)
      ∧ (NewConfig [WithIndentSize 25, WithIndentSize 4]).IndentSize = 4) := by
  exact ⟨by decide, by decide, by decide,
    newConfig_bounds_and_options [WithTabs] 21 25 4 DefaultConfig
      (by decide) (by decide) (by decide)⟩

/-- Hex digit characters are never `<`, `>` or `&`. -/
theorem hexDigitChar_not_html (n : Nat) :
    hexDigitChar n ≠ '<' ∧ hexDigitChar n ≠ '>' ∧ hexDigitChar n ≠ '&' := by
  have key : ∀ m : Fin 16,
      (if m.val < 10 then Char.ofNat (48 + m.val) else Char.ofNat (87 + m.val)) ≠ '<' ∧
      (if m.val < 10 then Char.ofNat (48 + m.val) else Char.ofNat (87 + m.val)) ≠ '>' ∧
      (if m.val < 10 then Char.ofNat (48 + m.val) else Char.ofNat (87 + m.val)) ≠ '&' := by
    decide
  exact key ⟨n % 16, Nat.mod_lt _ (by norm_num)⟩

/-- The per-character escaping never emits a literal `<`, `>` or `&`. -/
theorem goJsonEscapeChar_not_html (c : Char) :
    '<' ∉ goJsonEscapeChar c ∧ '>' ∉ goJsonEscapeChar c ∧ '&' ∉ goJsonEscapeChar c := by
  rw [goJsonEscapeChar]
  by_cases h1 : c.toNat = 34
  · rw [if_pos h1]; exact ⟨by decide, by decide, by decide⟩
  rw [if_neg h1]
  by_cases h2 : c.toNat = 92
  · rw [if_pos h2]; exact ⟨by decide, by decide, by decide⟩
  rw [if_neg h2]
  by_cases h3 : c.toNat = 60
  · rw [if_pos h3]; exact ⟨by decide, by decide, by decide⟩
  rw [if_neg h3]
  by_cases h4 : c.toNat = 62
  · rw [if_pos h4]; exact ⟨by decide, by decide, by decide⟩
  rw [if_neg h4]
  by_cases h5 : c.toNat = 38
  · rw [if_pos h5]; exact ⟨by decide, by decide, by decide⟩
  rw [if_neg h5]
  by_cases h6 : c.toNat = 10
  · rw [if_pos h6]; exact ⟨by decide, by decide, by decide⟩
  rw [if_neg h6]
  by_cases h7 : c.toNat = 13
  · rw [if_pos h7]; exact ⟨by decide, by decide, by decide⟩
  rw [if_neg h7]
  by_cases h8 : c.toNat = 9
  · rw [if_pos h8]; exact ⟨by decide, by decide, by decide⟩
  rw [if_neg h8]
  by_cases h9 : c.toNat < 32
  · rw [if_pos h9]
    refine ⟨?_, ?_, ?_⟩
    · intro hm
      simp only [List.mem_cons, List.not_mem_nil, or_false] at hm
      rcases hm with h | h | h | h | h | h
      · exact absurd h (by decide)
      · exact absurd h (by decide)
      · exact absurd h (by decide)
      · exact absurd h (by decide)
      · exact (hexDigitChar_not_html _).1 h.symm
      · exact (hexDigitChar_not_html _).1 h.symm
    · intro hm
      simp only [List.mem_cons, List.not_mem_nil, or_false] at hm
      rcases hm with h | h | h | h | h | h
      · exact absurd h (by decide)
      · exact absurd h (by decide)
      · exact absurd h (by decide)
      · exact absurd h (by decide)
      · exact (hexDigitChar_not_html _).2.1 h.symm
      · exact (hexDigitChar_not_html _).2.1 h.symm
    · intro hm
      simp only [List.mem_cons, List.not_mem_nil, or_false] at hm
      rcases hm with h | h | h | h | h | h
      · exact absurd h (by decide)
      · exact absurd h (by decide)
      · exact absurd h (by decide)
      · exact absurd h (by decide)
      · exact (hexDigitChar_not_html _).2.2 h.symm
      · exact (hexDigitChar_not_html _).2.2 h.symm
  rw [if_neg h9]
  by_cases h10 : c.toNat = 8232
  · rw [if_pos h10]; exact ⟨by decide, by decide, by decide⟩
  rw [if_neg h10]
  by_cases h11 : c.toNat = 8233
  · rw [if_pos h11]; exact ⟨by decide, by decide, by decide⟩
  rw [if_neg h11]
  refine ⟨?_, ?_, ?_⟩
  · intro hm
    obtain rfl := List.mem_singleton.mp hm
    exact h3 rfl
  · intro hm
    obtain rfl := List.mem_singleton.mp hm
    exact h4 rfl
  · intro hm
    obtain rfl := List.mem_singleton.mp hm
    exact h5 rfl

/-- Escaping a whole string never leaves a literal `<`, `>` or `&`. -/
theorem goJsonEscapeList_not_html (s : List Char) :
    '<' ∉ goJsonEscapeList s ∧ '>' ∉ goJsonEscapeList s ∧ '&' ∉ goJsonEscapeList s := by
  induction s with
  | nil => exact ⟨by decide, by decide, by decide⟩
  | cons c cs ih =>
    refine ⟨?_, ?_, ?_⟩
    · intro hmem
      rcases List.mem_append.mp hmem with hm | hm
      · exact (goJsonEscapeChar_not_html c).1 hm
      · exact ih.1 hm
    · intro hmem
      rcases List.mem_append.mp hmem with hm | hm
      · exact (goJsonEscapeChar_not_html c).2.1 hm
      · exact ih.2.1 hm
    · intro hmem
      rcases List.mem_append.mp hmem with hm | hm
      · exact (goJsonEscapeChar_not_html c).2.2 hm
      · exact ih.2.2 hm

/-- C10: string escaping is delegated to the marshaller, whose default HTML
escaping renders `<`, `>` and `&` as the sequences backslash-u003c,
backslash-u003e and backslash-u0026; no
escaped string or key ever contains those characters literally, and the
formatted output of `{"a":"x<y&z>w"}` shows the unicode escape sequences. -/
theorem escape_html_characters (s : String) :
    ('<' ∉ (goJsonEscapeString s).data ∧ '>' ∉ (goJsonEscapeString s).data
      ∧ '&' ∉ (goJsonEscapeString s).data)
    ∧ goJsonEscapeChar '<' = ['\\', 'u', '0', '0', '3', 'c']
    ∧ goJsonEscapeChar '>' = ['\\', 'u', '0', '0', '3', 'e']
    ∧ goJsonEscapeChar '&' = ['\\', 'u', '0', '0', '2', '6']
    ∧ (NewFormatter DefaultConfig).Format "\x7b\"a\":\"x<y&z>w\"\x7d"
        = ("\x7b\n  \"a\": \"x\\u003cy\\u0026z\\u003ew\"\n\x7d", none) := by
  refine ⟨?_, by decide, by decide, by decide, rfl⟩
  exact goJsonEscapeList_not_html s.data

theorem write_sameShape (p : TokenParser) (s : String) : sameShape p (p.write s) :=
  ⟨rfl, rfl, rfl, rfl, rfl⟩

theorem sameShape_trans {p q r : TokenParser} (h1 : sameShape p q) (h2 : sameShape q r) :
    sameShape p r := by
  obtain ⟨a1, b1, c1, d1, e1⟩ := h1
  obtain ⟨a2, b2, c2, d2, e2⟩ := h2
  exact ⟨a2.trans a1, b2.trans b1, c2.trans c1, d2.trans d1, e2.trans e1⟩

theorem writeIndent_shape {p q : TokenParser} (h : p.writeIndent = .ok q) :
    sameShape p q := by
  simp only [TokenParser.writeIndent] at h
  split_ifs at h <;> cases h <;> exact write_sameShape p _

theorem sameShape_refl (p : TokenParser) : sameShape p p :=
  ⟨rfl, rfl, rfl, rfl, rfl⟩

theorem writeNewlineAndIndent_shape {p q : TokenParser}
    (h : p.writeNewlineAndIndent = .ok q) : sameShape p q := by
  simp only [TokenParser.writeNewlineAndIndent] at h
  cases hw : (p.write "\n").writeIndent with
  | error e => rw [hw] at h; cases h
  | ok r =>
    rw [hw] at h
    cases h
    exact sameShape_trans (write_sameShape p "\n") (writeIndent_shape hw)

theorem writeCommaAndSpacing_shape {p q : TokenParser}
    (h : p.writeCommaAndSpacing = .ok q) : sameShape p q := by
  simp only [TokenParser.writeCommaAndSpacing] at h
  by_cases hc : p.shouldFormatCompact = true
  · rw [if_pos hc] at h
    cases h
    exact sameShape_trans (write_sameShape p ",") (write_sameShape _ " ")
  · rw [if_neg hc] at h
    cases hw : (p.write ",").writeNewlineAndIndent with
    | error e => rw [hw] at h; cases h
    | ok r =>
      rw [hw] at h
      cases h
      exact sameShape_trans (write_sameShape p ",") (writeNewlineAndIndent_shape hw)

theorem writeCommaAndSpacing_error {p : TokenParser} {e : FormatError}
    (h : p.writeCommaAndSpacing = .error e) :
    e.Msg = "failed to write newline and indent" := by
  simp only [TokenParser.writeCommaAndSpacing] at h
  by_cases hc : p.shouldFormatCompact = true
  · rw [if_pos hc] at h; cases h
  · rw [if_neg hc] at h
    cases hw : (p.write ",").writeNewlineAndIndent with
    | error e2 => rw [hw] at h; cases h; rfl
    | ok r => rw [hw] at h; cases h

theorem writeNewlineUnlessCompact_shape {p q : TokenParser}
    (h : p.writeNewlineUnlessCompact = .ok q) : sameShape p q := by
  simp only [TokenParser.writeNewlineUnlessCompact] at h
  by_cases hc : p.shouldFormatCompact = true
  · rw [if_pos hc] at h
    cases h
    exact sameShape_refl p
  · rw [if_neg hc] at h
    cases hw : p.writeNewlineAndIndent with
    | error e => rw [hw] at h; cases h
    | ok r =>
      rw [hw] at h
      cases h
      exact writeNewlineAndIndent_shape hw

theorem writeNewlineUnlessCompact_error {p : TokenParser} {e : FormatError}
    (h : p.writeNewlineUnlessCompact = .error e) :
    e.Msg = "failed to write newline and indent" := by
  simp only [TokenParser.writeNewlineUnlessCompact] at h
  by_cases hc : p.shouldFormatCompact = true
  · rw [if_pos hc] at h; cases h
  · rw [if_neg hc] at h
    cases hw : p.writeNewlineAndIndent with
    | error e2 => rw [hw] at h; cases h; rfl
    | ok r => rw [hw] at h; cases h

theorem writeArraySeparator_shape {p q : TokenParser}
    (h : p.writeArraySeparator = .ok q) : sameShape p q := by
  simp only [TokenParser.writeArraySeparator] at h
  by_cases h1 : ¬p.isFirstElement = true ∧ p.isInArray = true
  · rw [if_pos h1] at h
    exact writeCommaAndSpacing_shape h
  · rw [if_neg h1] at h
    by_cases h2 : 0 < p.depth ∧ p.isInArray = true
    · rw [if_pos h2] at h
      exact writeNewlineUnlessCompact_shape h
    · rw [if_neg h2] at h
      cases h
      exact sameShape_refl p

theorem writeArraySeparator_error {p : TokenParser} {e : FormatError}
    (h : p.writeArraySeparator = .error e) :
    e.Msg = "failed to write newline and indent" := by
  simp only [TokenParser.writeArraySeparator] at h
  by_cases h1 : ¬p.isFirstElement = true ∧ p.isInArray = true
  · rw [if_pos h1] at h
    exact writeCommaAndSpacing_error h
  · rw [if_neg h1] at h
    by_cases h2 : 0 < p.depth ∧ p.isInArray = true
    · rw [if_pos h2] at h
      exact writeNewlineUnlessCompact_error h
    · rw [if_neg h2] at h
      cases h

theorem writeCommaSeparator_shape {p q : TokenParser}
    (h : p.writeCommaSeparator = .ok q) : sameShape p q := by
  simp only [TokenParser.writeCommaSeparator] at h
  by_cases h1 : ¬p.isFirstElement = true ∧ p.isInArray = true
  · rw [if_pos h1] at h
    exact writeCommaAndSpacing_shape h
  · rw [if_neg h1] at h
    cases h
    exact sameShape_refl p

theorem writeCommaSeparator_error {p : TokenParser} {e : FormatError}
    (h : p.writeCommaSeparator = .error e) :
    e.Msg = "failed to write newline and indent" := by
  simp only [TokenParser.writeCommaSeparator] at h
  by_cases h1 : ¬p.isFirstElement = true ∧ p.isInArray = true
  · rw [if_pos h1] at h
    exact writeCommaAndSpacing_error h
  · rw [if_neg h1] at h
    cases h

theorem writeKeySeparator_shape {p q : TokenParser}
    (h : p.writeKeySeparator = .ok q) : sameShape p q := by
  simp only [TokenParser.writeKeySeparator] at h
  by_cases h1 : ¬p.isFirstElement = true
  · rw [if_pos h1] at h
    exact writeCommaAndSpacing_shape h
  · rw [if_neg h1] at h
    by_cases h2 : 0 < p.depth ∧ ¬p.shouldFormatCompact = true
    · rw [if_pos h2] at h
      cases hw : p.writeNewlineAndIndent with
      | error e => rw [hw] at h; cases h
      | ok r =>
        rw [hw] at h
        cases h
        exact writeNewlineAndIndent_shape hw
    · rw [if_neg h2] at h
      cases h
      exact sameShape_refl p

theorem writeKeySeparator_error {p : TokenParser} {e : FormatError}
    (h : p.writeKeySeparator = .error e) :
    e.Msg = "failed to write newline and indent" := by
  simp only [TokenParser.writeKeySeparator] at h
  by_cases h1 : ¬p.isFirstElement = true
  · rw [if_pos h1] at h
    exact writeCommaAndSpacing_error h
  · rw [if_neg h1] at h
    by_cases h2 : 0 < p.depth ∧ ¬p.shouldFormatCompact = true
    · rw [if_pos h2] at h
      cases hw : p.writeNewlineAndIndent with
      | error e2 => rw [hw] at h; cases h; rfl
      | ok r => rw [hw] at h; cases h
    · rw [if_neg h2] at h
      cases h

/-- Byte length of a replicated character. -/
theorem goStrLen_replicate (n : Nat) (c : Char) :
    goStrLen (String.mk (List.replicate n c)) = n * csize c := by
  simp [goStrLen, List.map_replicate, List.sum_replicate, smul_eq_mul]

/-- C8 counterexample: a string of 333334 copies of `世` (3 UTF-8 bytes
each) has only 333334 ≤ 1,000,000 characters, yet `handleString` rejects it
with the size-guard error, because the Go guard counts bytes
(`len(value)`), not characters. -/
theorem string_guard_rejects_short_multibyte :
    ((String.mk (List.replicate 333334 '世')).length ≤ 1000000)
    ∧ TokenParser.handleString (initParser DefaultConfig) (String.mk (List.replicate 333334 '世'))
        = .error (NewFormatError "string value too large (exceeds 1MB limit)") := by
  constructor
  · show (List.replicate 333334 '世').length ≤ 1000000
    rw [List.length_replicate]
    norm_num
  · have hlen : goStrLen (String.mk (List.replicate 333334 '世')) = 1000002 := by
      rw [goStrLen_replicate]; decide
    have hgt : goStrLen (String.mk (List.replicate 333334 '世')) > 1000000 := by
      rw [hlen]; norm_num
    rw [TokenParser.handleString.eq_def]
    rw [if_pos hgt]

/-- C8 (amended): `handleString` rejects a string token exactly when its
UTF-8 byte count (Go `len`) exceeds 1,000,000 — the guard fires before
anything is appended, and a token of at most 1,000,000 bytes is never
rejected with this guard's error. -/
theorem handleString_length_guard (p : TokenParser) (v : String) :
    (goStrLen v > 1000000 →
      p.handleString v = .error (NewFormatError "string value too large (exceeds 1MB limit)"))
    ∧ (goStrLen v ≤ 1000000 →
      p.handleString v ≠ .error (NewFormatError "string value too large (exceeds 1MB limit)")) := by
  have hnotgt : goStrLen v ≤ 1000000 → ¬ goStrLen v > 1000000 := fun h => by omega
  constructor
  · intro hgt
    simp only [TokenParser.handleString]
    rw [if_pos hgt]
  · intro hle hcontra
    have hesc : ∀ q : TokenParser, q.escapeString v = .ok (goJsonEscapeString v) := by
      intro q
      simp only [TokenParser.escapeString]
      rw [if_neg (hnotgt hle)]
    simp only [TokenParser.handleString] at hcontra
    rw [if_neg (hnotgt hle)] at hcontra
    by_cases hk : p.expectingKey = true
    · rw [if_pos hk] at hcontra
      by_cases hctx : p.depth = 0 ∨ p.isInArray = true
      · rw [if_pos hctx] at hcontra
        simp only [Except.error.injEq, NewFormatError, FormatError.mk.injEq] at hcontra
        exact absurd hcontra.1 (by decide)
      · rw [if_neg hctx] at hcontra
        cases hsep : p.writeKeySeparator with
        | error e =>
          rw [hsep] at hcontra
          simp only [Except.error.injEq] at hcontra
          have hmsg := writeKeySeparator_error hsep
          rw [hcontra] at hmsg
          simp only [NewFormatError] at hmsg
          exact absurd hmsg (by decide)
        | ok q =>
          rw [hsep] at hcontra
          simp [hesc] at hcontra
    · rw [if_neg hk] at hcontra
      cases hsep : p.writeArraySeparator with
      | error e =>
        rw [hsep] at hcontra
        simp only [Except.error.injEq] at hcontra
        have hmsg := writeArraySeparator_error hsep
        rw [hcontra] at hmsg
        simp only [NewFormatError] at hmsg
        exact absurd hmsg (by decide)
      | ok q =>
        rw [hsep] at hcontra
        simp [hesc] at hcontra

/-- Witness for the amended C8 theorem on a 1,000,001-byte string (guard
fires) and on `"ok"` (guard never fires). -/
theorem handleString_length_guard_witness :
    (goStrLen (String.mk (List.replicate 1000001 'a')) > 1000000
      ∧ TokenParser.handleString (initParser DefaultConfig)
          (String.mk (List.replicate 1000001 'a'))
          = .error (NewFormatError "string value too large (exceeds 1MB limit)"))
    ∧ (goStrLen "ok" ≤ 1000000
      ∧ TokenParser.handleString (initParser DefaultConfig) "ok"
          ≠ .error (NewFormatError "string value too large (exceeds 1MB limit)")) := by
  have hbig : goStrLen (String.mk (List.replicate 1000001 'a')) > 1000000 := by
    rw [goStrLen_replicate]; decide
  exact ⟨⟨hbig, (handleString_length_guard _ _).1 hbig⟩,
    ⟨by decide, (handleString_length_guard _ _).2 (by decide)⟩⟩

/-- Every exit of the token loop is either an empty result with an error or
a result with no error. -/
theorem formatLoop_outcome (fuel : Nat) (d : Dec) (p : TokenParser) (n len : Nat) :
    (∃ e, Formatter.formatLoop fuel d p n len = ("", some e))
    ∨ (∃ out, Formatter.formatLoop fuel d p n len = (out, none)) := by
  induction fuel generalizing d p n with
  | zero => exact Or.inl ⟨_, rfl⟩
  | succ fuel ih =>
    rw [Formatter.formatLoop]
    cases hnt : nextToken d with
    | error msg => exact Or.inl ⟨_, rfl⟩
    | ok t =>
      cases t with
      | none =>
        simp only []
        by_cases hd : p.depth ≠ 0
        · rw [if_pos hd]
          exact Or.inl ⟨_, rfl⟩
        · rw [if_neg hd]
          by_cases hn : n = 0
          · rw [if_pos hn]
            exact Or.inl ⟨_, rfl⟩
          · rw [if_neg hn]
            exact Or.inr ⟨_, rfl⟩
      | some td =>
        obtain ⟨tok, d'⟩ := td
        simp only []
        by_cases hc : n + 1 > 10000
        · rw [if_pos hc]
          exact Or.inl ⟨_, rfl⟩
        · rw [if_neg hc]
          cases hp : p.processToken tok with
          | error e => exact Or.inl ⟨_, rfl⟩
          | ok p' => exact ih d' p' (n + 1)

/-- C7: for every configuration and input string, `Format` returns either
an empty result together with an error, or a result with no error — never
both a (partial) result and an error. -/
theorem format_success_or_error (f : Formatter) (s : String) :
    (∃ e, f.Format s = ("", some e)) ∨ (∃ out, f.Format s = (out, none)) := by
  rw [Formatter.Format]
  by_cases hs : s = ""
  · rw [if_pos hs]
    exact Or.inl ⟨_, rfl⟩
  · rw [if_neg hs]
    exact formatLoop_outcome _ _ _ _ _

theorem ite_write_shape (C : Prop) [Decidable C] (q : TokenParser) (s1 s2 : String) :
    sameShape q (if C then q.write s1 else q.write s2) := by
  split_ifs
  · exact write_sameShape _ _
  · exact write_sameShape _ _

theorem enterArray_ok {p p' : TokenParser} (h : p.enterArray = .ok p') :
    p'.depth = p.depth + 1 ∧ p'.inArray = p.inArray ++ [true]
      ∧ 0 ≤ p.depth ∧ p.depth < 100 := by
  simp only [TokenParser.enterArray] at h
  by_cases h1 : p.depth < 0
  · rw [if_pos h1] at h; cases h
  · rw [if_neg h1] at h
    by_cases h2 : p.depth ≥ 100
    · rw [if_pos h2] at h; cases h
    · rw [if_neg h2] at h
      cases h
      exact ⟨rfl, rfl, by omega, by omega⟩

theorem enterObject_ok {p p' : TokenParser} (h : p.enterObject = .ok p') :
    p'.depth = p.depth + 1 ∧ p'.inArray = p.inArray ++ [false]
      ∧ 0 ≤ p.depth ∧ p.depth < 100 := by
  simp only [TokenParser.enterObject] at h
  by_cases h1 : p.depth < 0
  · rw [if_pos h1] at h; cases h
  · rw [if_neg h1] at h
    by_cases h2 : p.depth ≥ 100
    · rw [if_pos h2] at h; cases h
    · rw [if_neg h2] at h
      cases h
      exact ⟨rfl, rfl, by omega, by omega⟩

theorem exitArray_ok {p p' : TokenParser} (h : p.exitArray = .ok p') :
    p'.depth = p.depth - 1 ∧ p'.inArray = p.inArray.dropLast
      ∧ 0 < p.depth ∧ p.inArray.length ≠ 0 := by
  simp only [TokenParser.exitArray] at h
  by_cases h1 : p.depth ≤ 0
  · rw [if_pos h1] at h; cases h
  · rw [if_neg h1] at h
    by_cases h2 : p.inArray.length = 0
    · rw [if_pos h2] at h; cases h
    · rw [if_neg h2] at h
      by_cases h3 : ¬(p.inArray.getLast?.getD false) = true
      · rw [if_pos h3] at h; cases h
      · rw [if_neg h3] at h
        cases h
        exact ⟨rfl, rfl, by omega, h2⟩

theorem exitObject_ok {p p' : TokenParser} (h : p.exitObject = .ok p') :
    p'.depth = p.depth - 1 ∧ p'.inArray = p.inArray.dropLast
      ∧ 0 < p.depth ∧ p.inArray.length ≠ 0 := by
  simp only [TokenParser.exitObject] at h
  by_cases h1 : p.depth ≤ 0
  · rw [if_pos h1] at h; cases h
  · rw [if_neg h1] at h
    by_cases h2 : p.inArray.length = 0
    · rw [if_pos h2] at h; cases h
    · rw [if_neg h2] at h
      by_cases h3 : (p.inArray.getLast?.getD false) = true
      · rw [if_pos h3] at h; cases h
      · rw [if_neg h3] at h
        cases h
        exact ⟨rfl, rfl, by omega, h2⟩

theorem startObject_ok {p p' : TokenParser} (h : p.startObject = .ok p') :
    p'.depth = p.depth + 1 ∧ p'.inArray = p.inArray ++ [false]
      ∧ 0 ≤ p.depth ∧ p.depth < 100 := by
  simp only [TokenParser.startObject] at h
  by_cases c1 : p.expectingKey = true ∧ 0 < p.depth
  · rw [if_pos c1] at h; cases h
  · rw [if_neg c1] at h
    by_cases c2 : p.depth ≥ 100
    · rw [if_pos c2] at h; cases h
    · rw [if_neg c2] at h
      split at h
      · cases h
      · next q hsep =>
        obtain ⟨hqd, hqa, _, _, _⟩ := writeArraySeparator_shape hsep
        split at h
        · cases h
        · next s hent =>
          obtain ⟨hsd, hsa, _, _⟩ := enterObject_ok hent
          obtain ⟨hrd, hra, _, _, _⟩ :=
            ite_write_shape (0 < p.depth ∧ ¬p.isInArray = true) q " \x7b" "\x7b"
          cases h
          refine ⟨?_, ?_, by omega, by omega⟩
          · show s.depth = p.depth + 1
            omega
          · show s.inArray = p.inArray ++ [false]
            rw [hsa, hra, hqa]

theorem startArray_ok {p p' : TokenParser} (h : p.startArray = .ok p') :
    p'.depth = p.depth + 1 ∧ p'.inArray = p.inArray ++ [true]
      ∧ 0 ≤ p.depth ∧ p.depth < 100 := by
  simp only [TokenParser.startArray] at h
  by_cases c1 : p.expectingKey = true ∧ 0 < p.depth
  · rw [if_pos c1] at h; cases h
  · rw [if_neg c1] at h
    by_cases c2 : p.depth ≥ 100
    · rw [if_pos c2] at h; cases h
    · rw [if_neg c2] at h
      split at h
      · cases h
      · next q hsep =>
        obtain ⟨hqd, hqa, _, _, _⟩ := writeCommaSeparator_shape hsep
        split at h
        · cases h
        · next s hent =>
          obtain ⟨hsd, hsa, _, _⟩ := enterArray_ok hent
          obtain ⟨hrd, hra, _, _, _⟩ :=
            ite_write_shape (0 < p.depth ∧ ¬p.isInArray = true) q " [" "["
          cases h
          refine ⟨?_, ?_, by omega, by omega⟩
          · show s.depth = p.depth + 1
            omega
          · show s.inArray = p.inArray ++ [true]
            rw [hsa, hra, hqa]

theorem endObject_ok {p p' : TokenParser} (h : p.endObject = .ok p') :
    p'.depth = p.depth - 1 ∧ p'.inArray = p.inArray.dropLast
      ∧ 0 < p.depth ∧ p.inArray.length ≠ 0 := by
  simp only [TokenParser.endObject] at h
  by_cases c1 : p.depth = 0
  · rw [if_pos c1] at h; cases h
  · rw [if_neg c1] at h
    by_cases c2 : p.inArray.length = 0
    · rw [if_pos c2] at h; cases h
    · rw [if_neg c2] at h
      by_cases c3 : p.isInArray = true
      · rw [if_pos c3] at h; cases h
      · rw [if_neg c3] at h
        split at h
        · cases h
        · next q hexit =>
          obtain ⟨hqd, hqa, hpos, hlen⟩ := exitObject_ok hexit
          by_cases c4 : p.shouldFormatCompact = true
          · rw [if_pos c4] at h
            cases h
            exact ⟨hqd, hqa, hpos, hlen⟩
          · rw [if_neg c4] at h
            split at h
            · cases h
            · next r hnl =>
              obtain ⟨hrd, hra, _, _, _⟩ := writeNewlineAndIndent_shape hnl
              have hqd2 : ({ q with expectingKey := false } : TokenParser).depth = q.depth := rfl
              have hqa2 : ({ q with expectingKey := false } : TokenParser).inArray = q.inArray := rfl
              rw [hqd2] at hrd
              rw [hqa2] at hra
              cases h
              refine ⟨?_, ?_, hpos, hlen⟩
              · show r.depth = p.depth - 1
                omega
              · show r.inArray = p.inArray.dropLast
                rw [hra]
                exact hqa

theorem endArray_ok {p p' : TokenParser} (h : p.endArray = .ok p') :
    p'.depth = p.depth - 1 ∧ p'.inArray = p.inArray.dropLast
      ∧ 0 < p.depth ∧ p.inArray.length ≠ 0 := by
  simp only [TokenParser.endArray] at h
  by_cases c1 : p.depth = 0
  · rw [if_pos c1] at h; cases h
  · rw [if_neg c1] at h
    by_cases c2 : p.inArray.length = 0
    · rw [if_pos c2] at h; cases h
    · rw [if_neg c2] at h
      by_cases c3 : ¬p.isInArray = true
      · rw [if_pos c3] at h; cases h
      · rw [if_neg c3] at h
        split at h
        · cases h
        · next q hexit =>
          obtain ⟨hqd, hqa, hpos, hlen⟩ := exitArray_ok hexit
          split at h
          · cases h
          · next r hwr =>
            have hshape : sameShape q r := by
              by_cases c4 : p.shouldFormatCompact = true
              · rw [if_pos c4] at hwr
                cases hwr
                exact write_sameShape q "]"
              · rw [if_neg c4] at hwr
                split at hwr
                · cases hwr
                · next r2 hnl =>
                  cases hwr
                  exact sameShape_trans (writeNewlineAndIndent_shape hnl) (write_sameShape r2 "]")
            obtain ⟨hrd, hra, _, _, _⟩ := hshape
            cases h
            by_cases c5 : ¬r.isInArray = true
            · rw [if_pos c5]
              refine ⟨?_, ?_, hpos, hlen⟩
              · show r.depth = p.depth - 1
                omega
              · show r.inArray = p.inArray.dropLast
                rw [hra]; exact hqa
            · rw [if_neg c5]
              refine ⟨?_, ?_, hpos, hlen⟩
              · show r.depth = p.depth - 1
                omega
              · show r.inArray = p.inArray.dropLast
                rw [hra]; exact hqa

theorem handleNull_shape {p p' : TokenParser} (h : p.handleNull = .ok p') :
    p'.depth = p.depth ∧ p'.inArray = p.inArray := by
  simp only [TokenParser.handleNull] at h
  by_cases hk : p.expectingKey = true
  · rw [if_pos hk] at h; cases h
  · rw [if_neg hk] at h
    split at h
    · cases h
    · next q hsep =>
      obtain ⟨hqd, hqa, _, _, _⟩ := writeArraySeparator_shape hsep
      cases h
      split_ifs
      all_goals exact ⟨hqd, hqa⟩

theorem handleBoolean_shape {p : TokenParser} {b : Bool} {p' : TokenParser}
    (h : p.handleBoolean b = .ok p') :
    p'.depth = p.depth ∧ p'.inArray = p.inArray := by
  simp only [TokenParser.handleBoolean] at h
  by_cases hk : p.expectingKey = true
  · rw [if_pos hk] at h; cases h
  · rw [if_neg hk] at h
    split at h
    · cases h
    · next q hsep =>
      obtain ⟨hqd, hqa, _, _, _⟩ := writeArraySeparator_shape hsep
      cases h
      split_ifs
      all_goals exact ⟨hqd, hqa⟩

theorem handleNumber_shape {p : TokenParser} {rendered : String} {p' : TokenParser}
    (h : p.handleNumber rendered = .ok p') :
    p'.depth = p.depth ∧ p'.inArray = p.inArray := by
  simp only [TokenParser.handleNumber] at h
  by_cases hk : p.expectingKey = true
  · rw [if_pos hk] at h; cases h
  · rw [if_neg hk] at h
    split at h
    · cases h
    · next q hsep =>
      obtain ⟨hqd, hqa, _, _, _⟩ := writeArraySeparator_shape hsep
      split at h
      · next e hfn => simp [TokenParser.formatNumber] at hfn
      · next fn hfn =>
        cases h
        split_ifs
        all_goals exact ⟨hqd, hqa⟩

theorem handleString_shape {p : TokenParser} {v : String} {p' : TokenParser}
    (h : p.handleString v = .ok p') :
    p'.depth = p.depth ∧ p'.inArray = p.inArray := by
  simp only [TokenParser.handleString] at h
  by_cases hg : goStrLen v > 1000000
  · rw [if_pos hg] at h; cases h
  · rw [if_neg hg] at h
    by_cases hk : p.expectingKey = true
    · rw [if_pos hk] at h
      by_cases hctx : p.depth = 0 ∨ p.isInArray = true
      · rw [if_pos hctx] at h; cases h
      · rw [if_neg hctx] at h
        split at h
        · cases h
        · next q hsep =>
          obtain ⟨hqd, hqa, _, _, _⟩ := writeKeySeparator_shape hsep
          split at h
          · cases h
          · next ek hek =>
            cases h
            refine ⟨?_, ?_⟩
            · show (q.write "\"").depth = p.depth
              exact hqd
            · show (q.write "\"").inArray = p.inArray
              exact hqa
    · rw [if_neg hk] at h
      split at h
      · cases h
      · next q hsep =>
        obtain ⟨hqd, hqa, _, _, _⟩ := writeArraySeparator_shape hsep
        split at h
        · cases h
        · next ev hev =>
          cases h
          split_ifs
          all_goals exact ⟨hqd, hqa⟩

/-- One successful `processToken` step preserves the engine-state invariant. -/
theorem processToken_preserves_validState {p : TokenParser} {t : JsonToken}
    {p' : TokenParser} (hinv : validState p) (h : p.processToken t = .ok p') :
    validState p' := by
  obtain ⟨hlen, hge, hle⟩ := hinv
  simp only [TokenParser.processToken] at h
  by_cases h1 : p.depth < 0
  · rw [if_pos h1] at h; cases h
  · rw [if_neg h1] at h
    by_cases h2 : p.depth > 100
    · rw [if_pos h2] at h; cases h
    · rw [if_neg h2] at h
      cases t with
      | delim d =>
        simp only [TokenParser.handleDelimiter] at h
        by_cases hd1 : d = '{'
        · rw [if_pos hd1] at h
          obtain ⟨hpd, hpa, hge2, hlt⟩ := startObject_ok h
          have hl2 : p'.inArray.length = p.inArray.length + 1 := by
            rw [hpa]; simp
          exact ⟨by omega, by omega, by omega⟩
        · rw [if_neg hd1] at h
          by_cases hd2 : d = '}'
          · rw [if_pos hd2] at h
            obtain ⟨hpd, hpa, hpos, hne⟩ := endObject_ok h
            have hdl : p'.inArray.length = p.inArray.length - 1 := by
              rw [hpa, List.length_dropLast]
            exact ⟨by omega, by omega, by omega⟩
          · rw [if_neg hd2] at h
            by_cases hd3 : d = '['
            · rw [if_pos hd3] at h
              obtain ⟨hpd, hpa, hge2, hlt⟩ := startArray_ok h
              have hl2 : p'.inArray.length = p.inArray.length + 1 := by
                rw [hpa]; simp
              exact ⟨by omega, by omega, by omega⟩
            · rw [if_neg hd3] at h
              by_cases hd4 : d = ']'
              · rw [if_pos hd4] at h
                obtain ⟨hpd, hpa, hpos, hne⟩ := endArray_ok h
                have hdl : p'.inArray.length = p.inArray.length - 1 := by
                  rw [hpa, List.length_dropLast]
                exact ⟨by omega, by omega, by omega⟩
              · rw [if_neg hd4] at h
                cases h
      | str s =>
        obtain ⟨hpd, hpa⟩ := handleString_shape h
        rw [validState, hpd, hpa]
        exact ⟨hlen, hge, hle⟩
      | num r =>
        obtain ⟨hpd, hpa⟩ := handleNumber_shape h
        rw [validState, hpd, hpa]
        exact ⟨hlen, hge, hle⟩
      | boolean b =>
        obtain ⟨hpd, hpa⟩ := handleBoolean_shape h
        rw [validState, hpd, hpa]
        exact ⟨hlen, hge, hle⟩
      | null =>
        obtain ⟨hpd, hpa⟩ := handleNull_shape h
        rw [validState, hpd, hpa]
        exact ⟨hlen, hge, hle⟩

/-- C4: the engine-state invariant — the container-kind stack's length always
equals `depth` and `0 ≤ depth ≤ 100`.  It holds for the initial state,
every successfully processed token preserves it, entering a container pushes
exactly one tag and increments `depth` by one, leaving one pops exactly one
tag and decrements `depth` by one, and the scalar handlers change neither. -/
theorem engine_depth_stack_invariant :
    (∀ config, validState (initParser config))
    ∧ (∀ (p : TokenParser) (t : JsonToken) (p' : TokenParser),
        validState p → p.processToken t = .ok p' → validState p')
    ∧ (∀ p p' : TokenParser, p.enterArray = .ok p' →
        p'.depth = p.depth + 1 ∧ p'.inArray = p.inArray ++ [true])
    ∧ (∀ p p' : TokenParser, p.enterObject = .ok p' →
        p'.depth = p.depth + 1 ∧ p'.inArray = p.inArray ++ [false])
    ∧ (∀ p p' : TokenParser, p.exitArray = .ok p' →
        p'.depth = p.depth - 1 ∧ p'.inArray = p.inArray.dropLast)
    ∧ (∀ p p' : TokenParser, p.exitObject = .ok p' →
        p'.depth = p.depth - 1 ∧ p'.inArray = p.inArray.dropLast)
    ∧ (∀ (p : TokenParser) (v : String) (p' : TokenParser), p.handleString v = .ok p' →
        p'.depth = p.depth ∧ p'.inArray = p.inArray)
    ∧ (∀ (p : TokenParser) (r : String) (p' : TokenParser), p.handleNumber r = .ok p' →
        p'.depth = p.depth ∧ p'.inArray = p.inArray)
    ∧ (∀ (p : TokenParser) (b : Bool) (p' : TokenParser), p.handleBoolean b = .ok p' →
        p'.depth = p.depth ∧ p'.inArray = p.inArray)
    ∧ (∀ p p' : TokenParser, p.handleNull = .ok p' →
        p'.depth = p.depth ∧ p'.inArray = p.inArray) := by
  refine ⟨?_, ?_, ?_, ?_, ?_, ?_, ?_, ?_, ?_, ?_⟩
  · intro config
    refine ⟨rfl, le_refl 0, ?_⟩
    show (0 : Int) ≤ 100
    norm_num
  · intro p t p' hinv h
    exact processToken_preserves_validState hinv h
  · intro p p' h
    obtain ⟨h1, h2, _, _⟩ := enterArray_ok h
    exact ⟨h1, h2⟩
  · intro p p' h
    obtain ⟨h1, h2, _, _⟩ := enterObject_ok h
    exact ⟨h1, h2⟩
  · intro p p' h
    obtain ⟨h1, h2, _, _⟩ := exitArray_ok h
    exact ⟨h1, h2⟩
  · intro p p' h
    obtain ⟨h1, h2, _, _⟩ := exitObject_ok h
    exact ⟨h1, h2⟩
  · intro p v p' h
    exact handleString_shape h
  · intro p r p' h
    exact handleNumber_shape h
  · intro p b p' h
    exact handleBoolean_shape h
  · intro p p' h
    exact handleNull_shape h

/-- Witness for C4: the initial state satisfies the invariant, and one
opening-brace step from it yields a state that satisfies it again. -/
theorem engine_depth_stack_invariant_witness :
    validState (initParser DefaultConfig)
    ∧ TokenParser.processToken (initParser DefaultConfig) (.delim '{')
        = .ok ⟨1, [false], "\x7b", DefaultConfig, true, true⟩
    ∧ validState (⟨1, [false], "\x7b", DefaultConfig, true, true⟩ : TokenParser) :=
  ⟨engine_depth_stack_invariant.1 DefaultConfig, rfl,
    engine_depth_stack_invariant.2.1 (initParser DefaultConfig) (.delim '{')
      ⟨1, [false], "\x7b", DefaultConfig, true, true⟩
      (engine_depth_stack_invariant.1 DefaultConfig) rfl⟩
